import Mathlib

/-!
Verification of the shape-packing core of the Nesting Calculator
(`src/main.py`): `pack_shapes`, `calculate_shape_area`,
`calculate_unused_area` and the caller's area upper bound (line 335).

The embedding works over exact rationals.  The Python float constant
`math.sqrt(3)` is passed in as an explicit rational parameter `sqrt3`
(its IEEE-754 double value is the rational `fsqrt3` below); `math.pi`
is likewise a parameter `pi` of the area functions.  Python's unbounded
`while True` row loop is modelled with explicit fuel; `pack_shapes`
supplies fuel that dominates the true number of row iterations whenever
the vertical pitch is positive and the row offsets are nonnegative, and
a dedicated error value `PackError.nonTermination` marks the (never
reached under the claims' hypotheses) fuel-exhaustion case.  The Python
counter pair `placed`/`num_shapes` is represented by the single number
`remaining = num_shapes - placed`, so that `placed < num_shapes` becomes
`remaining ≠ 0` and `placed += 1` becomes `remaining - 1`; this keeps
every loop structurally recursive and hence kernel-computable.
Rational division by zero yields 0 where Python would raise
`ZeroDivisionError`; no claim exercises that corner.
-/

unseal Rat.add Rat.mul Rat.sub Rat.inv Rat.ofScientific

namespace Nesting

/-- Decidable equality of `Except` results, for evaluating the model on
concrete inputs. -/
instance exceptDecEq {ε α : Type} [DecidableEq ε] [DecidableEq α] :
    DecidableEq (Except ε α) := fun x y =>
  match x, y with
  | .error e, .error e' =>
    if h : e = e' then .isTrue (by rw [h]) else .isFalse (by simp [h])
  | .error _, .ok _ => .isFalse (by simp)
  | .ok _, .error _ => .isFalse (by simp)
  | .ok a, .ok a' =>
    if h : a = a' then .isTrue (by rw [h]) else .isFalse (by simp [h])

/-- Python `int(q)` applied to a real quantity: truncation toward zero
(used at lines 50-53 of `src/main.py` and at line 335). -/
def pyInt (q : ℚ) : ℤ := if 0 ≤ q then ⌊q⌋ else ⌈q⌉

/-- The `params` dict: finite mapping from parameter name to value. -/
abbrev Params := List (String × ℚ)

/-- One placed-shape record, the dict appended at src/main.py lines 129-134. -/
structure PlacedShape where
  type : String
  params : Params
  x : ℚ
  y : ℚ
deriving DecidableEq

/-- Exceptions raised by the core (`KeyError` from a missing dict key,
`ValueError` from line 71, `RuntimeError` from line 145), plus the
model's marker for non-termination of the Python `while` loops (fuel
exhaustion; never produced under the claims' hypotheses). -/
inductive PackError where
  | keyError (key : String)
  | valueError
  | runtimeError
  | nonTermination
deriving DecidableEq

/-- Result of the grid-increment computation, src/main.py lines 32-71.
`params` is the possibly reoriented mapping (line 60); `r`, `L`, `a`
mirror the Python local variables bound by the branch taken (0 when the
branch binds no such variable, in which case the loops never read it). -/
structure Pitch where
  dx : ℚ
  dy : ℚ
  params : Params
  r : ℚ
  L : ℚ
  a : ℚ
deriving DecidableEq

/-- src/main.py lines 32-71: determine grid increments per shape.
`sqrt3` embeds the float `math.sqrt(3)`.  A missing dict key raises
`KeyError` exactly where Python would evaluate `params[...]`; an
unknown shape type raises `ValueError` (line 71).  In the rectangle
branch, `if rows1 * cols1 >= rows2 * cols2` keeps orientation 1 and
otherwise line 58 sets `dx, dy = dx2, dy1` (faithful to the source:
`dy1`, not `dy2`) and line 60 rebinds `params = {'l': w, 'w': l}`. -/
def computeIncrements (shape_type : String) (params : Params)
    (sheet_w sheet_h clearance sqrt3 : ℚ) : Except PackError Pitch :=
  if shape_type = "circle" then
    match params.lookup "r" with
    | none => .error (.keyError "r")
    | some r =>
      let D_eff := 2 * r + clearance
      .ok ⟨D_eff, D_eff * sqrt3 / 2, params, r, 0, 0⟩
  else if shape_type = "square" then
    match params.lookup "L" with
    | none => .error (.keyError "L")
    | some L =>
      let D_eff := L + clearance
      .ok ⟨D_eff, D_eff, params, 0, L, 0⟩
  else if shape_type = "rectangle" then
    match params.lookup "l" with
    | none => .error (.keyError "l")
    | some l =>
      match params.lookup "w" with
      | none => .error (.keyError "w")
      | some w =>
        let dx1 := l + clearance
        let dy1 := w + clearance
        let dx2 := w + clearance
        let dy2 := l + clearance
        let rows1 := pyInt (sheet_h / dy1)
        let cols1 := pyInt (sheet_w / dx1)
        let rows2 := pyInt (sheet_h / dy2)
        let cols2 := pyInt (sheet_w / dx2)
        if rows1 * cols1 ≥ rows2 * cols2 then
          .ok ⟨dx1, dy1, params, 0, 0, 0⟩
        else
          .ok ⟨dx2, dy1, [("l", w), ("w", l)], 0, 0, 0⟩
  else if shape_type = "triangle" then
    match params.lookup "a" with
    | none => .error (.keyError "a")
    | some a =>
      let h := a * sqrt3 / 2
      .ok ⟨a + clearance, h + clearance, params, 0, 0, a⟩
  else if shape_type = "semi-circle" then
    match params.lookup "r" with
    | none => .error (.keyError "r")
    | some r => .ok ⟨2 * r + clearance, r + clearance, params, r, 0, 0⟩
  else .error .valueError

/-- Row center-y, src/main.py lines 79-104 (the per-shape `y = ...`
assignments; the triangle branch recomputes `h = a*sqrt(3)/2` at line
95).  The final branch covers "semi-circle"; an unknown shape type
never reaches the loops (`computeIncrements` rejects it first). -/
def yOf (shape_type : String) (params : Params) (r L a dy sqrt3 : ℚ)
    (row : ℕ) : ℚ :=
  if shape_type = "circle" then r + row * dy
  else if shape_type = "square" then L / 2 + row * dy
  else if shape_type = "rectangle" then
    ((params.lookup "w").getD 0) / 2 + row * dy
  else if shape_type = "triangle" then (a * sqrt3 / 2) / 3 + row * dy
  else r + row * dy

/-- The row-loop break bound (lines 81, 86, 91, 97, 102): the loop
breaks once `y > yLimitOf ...`. -/
def yLimitOf (shape_type : String) (params : Params)
    (r L a sqrt3 sheet_h : ℚ) : ℚ :=
  if shape_type = "circle" then sheet_h - r
  else if shape_type = "square" then sheet_h - L / 2
  else if shape_type = "rectangle" then
    sheet_h - ((params.lookup "w").getD 0) / 2
  else if shape_type = "triangle" then sheet_h - 2 * (a * sqrt3 / 2) / 3
  else sheet_h - r

/-- Horizontal offset of a row, line 83: `(dx/2) if (row % 2) else 0`
for circles, 0 for every other shape (lines 88, 93, 99, 104). -/
def xOffsetOf (shape_type : String) (dx : ℚ) (row : ℕ) : ℚ :=
  if shape_type = "circle" then (if row % 2 = 1 then dx / 2 else 0) else 0

/-- Column center-x, src/main.py lines 109-123. -/
def xOf (shape_type : String) (params : Params) (r L a dx : ℚ)
    (x_offset : ℚ) (col : ℕ) : ℚ :=
  if shape_type = "circle" then x_offset + r + col * dx
  else if shape_type = "square" then x_offset + L / 2 + col * dx
  else if shape_type = "rectangle" then
    x_offset + ((params.lookup "l").getD 0) / 2 + col * dx
  else if shape_type = "triangle" then x_offset + a / 2 + col * dx
  else x_offset + r + col * dx

/-- The column-loop break bound (`bound` at lines 111, 114, 117, 120,
123): the loop breaks once `x > xBoundOf ...`. -/
def xBoundOf (shape_type : String) (params : Params)
    (r L a sheet_w : ℚ) : ℚ :=
  if shape_type = "circle" then sheet_w - r
  else if shape_type = "square" then sheet_w - L / 2
  else if shape_type = "rectangle" then
    sheet_w - ((params.lookup "l").getD 0) / 2
  else if shape_type = "triangle" then sheet_w - a / 2
  else sheet_w - r

/-- Column loop, src/main.py lines 106-138, returning the records it
appends.  `remaining` stands for `num_shapes - placed`, so the Python
guard `placed < num_shapes` is the `rem + 1` pattern and each append
consumes one unit; the loop also breaks once `x > bound` (line 125). -/
def colLoop (shape_type : String) (params : Params)
    (r L a dx sheet_w x_offset y : ℚ) (remaining col : ℕ) :
    List PlacedShape :=
  let x := xOf shape_type params r L a dx x_offset col
  if x > xBoundOf shape_type params r L a sheet_w then []
  else
    match remaining with
    | 0 => []
    | rem + 1 =>
      ⟨shape_type, params, x, y⟩ ::
        colLoop shape_type params r L a dx sheet_w x_offset y rem (col + 1)

/-- Row loop for one sheet, src/main.py lines 76-142, returning the
records placed on the sheet.  `fuel` bounds the iterations of the
unbounded Python `while True`; `none` models non-termination.  After a
row's column loop, `remaining' = 0` is the Python break condition
`placed >= num_shapes` (line 140); otherwise the loop continues with
`row + 1` (line 142). -/
def rowLoop (shape_type : String) (params : Params)
    (r L a dx dy sheet_w sheet_h sqrt3 : ℚ) :
    (fuel remaining row : ℕ) → Option (List PlacedShape)
  | 0, _, _ => none
  | fuel + 1, remaining, row =>
    let y := yOf shape_type params r L a dy sqrt3 row
    if y > yLimitOf shape_type params r L a sqrt3 sheet_h then some []
    else
      let cols := colLoop shape_type params r L a dx sheet_w
        (xOffsetOf shape_type dx row) y remaining 0
      let remaining' := remaining - cols.length
      if remaining' = 0 then some cols
      else
        match rowLoop shape_type params r L a dx dy sheet_w sheet_h sqrt3
            fuel remaining' (row + 1) with
        | none => none
        | some rest => some (cols ++ rest)

/-- Sheet loop, src/main.py lines 74-152.  The Python guard
`placed < num_shapes` is `remaining ≠ 0`; an empty sheet raises
`RuntimeError` (line 145).  `gas` bounds the number of sheets opened;
`pack_shapes` passes `gas = num_shapes`, which suffices because every
appended sheet consumes at least one unit of `remaining`. -/
def sheetLoop (shape_type : String) (params : Params)
    (r L a dx dy sheet_w sheet_h sqrt3 : ℚ) (fuel : ℕ) :
    (gas remaining : ℕ) → Except PackError (List (List PlacedShape))
  | 0, remaining =>
    if remaining = 0 then .ok [] else .error .nonTermination
  | gas + 1, remaining =>
    if remaining = 0 then .ok []
    else
      match rowLoop shape_type params r L a dx dy sheet_w sheet_h sqrt3
          fuel remaining 0 with
      | none => .error .nonTermination
      | some sheet_positions =>
        if sheet_positions = [] then .error .runtimeError
        else
          match sheetLoop shape_type params r L a dx dy sheet_w sheet_h sqrt3
              fuel gas (remaining - sheet_positions.length) with
          | .error e => .error e
          | .ok sheets => .ok (sheet_positions :: sheets)

/-- Fuel for the row loop: strictly more than the number of row indices
the loop can visit whenever `0 < dy`, the first row offset is
nonnegative and the trailing half-extent is nonnegative. -/
def rowFuel (sheet_h dy : ℚ) : ℕ := (⌊sheet_h / dy⌋).toNat + 2

/-- src/main.py lines 22-152: `pack_shapes`.  Numbers are exact
rationals; `sqrt3` embeds the Python float `math.sqrt(3)`. -/
def pack_shapes (shape_type : String) (params : Params) (num_shapes : ℕ)
    (sheet_w sheet_h clearance sqrt3 : ℚ) :
    Except PackError (List (List PlacedShape)) :=
  match computeIncrements shape_type params sheet_w sheet_h clearance sqrt3 with
  | .error e => .error e
  | .ok p =>
    sheetLoop shape_type p.params p.r p.L p.a p.dx p.dy sheet_w sheet_h
      sqrt3 (rowFuel sheet_h p.dy) num_shapes num_shapes

/-- src/main.py lines 256-275: `calculate_shape_area`.  `pi` embeds
`math.pi`, `sqrt3` embeds `math.sqrt(3)`. -/
def calculate_shape_area (shape_type : String) (params : Params)
    (pi sqrt3 : ℚ) : Except PackError ℚ :=
  if shape_type = "circle" then
    match params.lookup "r" with
    | none => .error (.keyError "r")
    | some r => .ok (pi * r * r)
  else if shape_type = "square" then
    match params.lookup "L" with
    | none => .error (.keyError "L")
    | some L => .ok (L * L)
  else if shape_type = "rectangle" then
    match params.lookup "l" with
    | none => .error (.keyError "l")
    | some l =>
      match params.lookup "w" with
      | none => .error (.keyError "w")
      | some w => .ok (l * w)
  else if shape_type = "triangle" then
    match params.lookup "a" with
    | none => .error (.keyError "a")
    | some a => .ok (a * (a * sqrt3 / 2) / 2)
  else if shape_type = "semi-circle" then
    match params.lookup "r" with
    | none => .error (.keyError "r")
    | some r => .ok (pi * r * r / 2)
  else .error .valueError

/-- src/main.py lines 277-283: `calculate_unused_area`. -/
def calculate_unused_area (shape_type : String) (shape_params : Params)
    (sheet_w sheet_h : ℚ) (count : ℕ) (pi sqrt3 : ℚ) :
    Except PackError ℚ :=
  match calculate_shape_area shape_type shape_params pi sqrt3 with
  | .error e => .error e
  | .ok shape_area => .ok (sheet_w * sheet_h - shape_area * count)

/-- src/main.py line 335: `area_bound = int(sheet_area // shape_area)`
(float floor division followed by `int`, i.e. the floor for the
nonnegative quantities involved). -/
def area_upper_bound (shape_type : String) (params : Params)
    (sheet_w sheet_h pi sqrt3 : ℚ) : Except PackError ℤ :=
  match calculate_shape_area shape_type params pi sqrt3 with
  | .error e => .error e
  | .ok shape_area => .ok ⌊sheet_w * sheet_h / shape_area⌋

/-- The leading horizontal half-extent each shape keeps from the
vertical sheet edges (`x` starts at `x_offset +` this, and the column
bound is `sheet_w -` this): `r` for circle and semicircle, `L/2` for
square, stored `l/2` for rectangle, `a/2` for triangle. -/
def halfExtentX (shape_type : String) (params : Params) (r L a : ℚ) : ℚ :=
  if shape_type = "circle" then r
  else if shape_type = "square" then L / 2
  else if shape_type = "rectangle" then ((params.lookup "l").getD 0) / 2
  else if shape_type = "triangle" then a / 2
  else r

/-- The first-row center offset (= leading vertical half-extent): `r`
for circle and semicircle, `L/2` for square, stored `w/2` for
rectangle, `h/3` for triangle — the raw, un-inflated sizes. -/
def firstRowOffset (shape_type : String) (params : Params)
    (r L a sqrt3 : ℚ) : ℚ :=
  if shape_type = "circle" then r
  else if shape_type = "square" then L / 2
  else if shape_type = "rectangle" then ((params.lookup "w").getD 0) / 2
  else if shape_type = "triangle" then (a * sqrt3 / 2) / 3
  else r

/-- The trailing vertical half-extent (the row loop stops once
`y > sheet_h -` this): `r`, `L/2`, stored `w/2`, and the asymmetric
`2h/3` for the triangle. -/
def trailExtY (shape_type : String) (params : Params)
    (r L a sqrt3 : ℚ) : ℚ :=
  if shape_type = "circle" then r
  else if shape_type = "square" then L / 2
  else if shape_type = "rectangle" then ((params.lookup "w").getD 0) / 2
  else if shape_type = "triangle" then 2 * (a * sqrt3 / 2) / 3
  else r

/-- The grid's origin cell (row 0, column 0, zero row offset) passes
both bounds checks, i.e. the per-sheet capacity of the grid heuristic
is positive. -/
def canPlaceOne (shape_type : String) (p : Pitch)
    (sheet_w sheet_h sqrt3 : ℚ) : Prop :=
  yOf shape_type p.params p.r p.L p.a p.dy sqrt3 0 ≤
      yLimitOf shape_type p.params p.r p.L p.a sqrt3 sheet_h ∧
  xOf shape_type p.params p.r p.L p.a p.dx 0 0 ≤
      xBoundOf shape_type p.params p.r p.L p.a sheet_w

instance (shape_type : String) (p : Pitch) (sheet_w sheet_h sqrt3 : ℚ) :
    Decidable (canPlaceOne shape_type p sheet_w sheet_h sqrt3) := by
  unfold canPlaceOne; infer_instance

/-- The supported shape kinds together with their required, strictly
positive parameters. -/
def validInput (shape_type : String) (params : Params) : Prop :=
  (shape_type = "circle" ∧ ∃ r, params.lookup "r" = some r ∧ 0 < r) ∨
  (shape_type = "square" ∧ ∃ L, params.lookup "L" = some L ∧ 0 < L) ∨
  (shape_type = "rectangle" ∧
    ∃ l w, params.lookup "l" = some l ∧ params.lookup "w" = some w ∧
      0 < l ∧ 0 < w) ∨
  (shape_type = "triangle" ∧ ∃ a, params.lookup "a" = some a ∧ 0 < a) ∨
  (shape_type = "semi-circle" ∧ ∃ r, params.lookup "r" = some r ∧ 0 < r)

/-- The dict keys `computeIncrements` reads for each supported kind, in
evaluation order. -/
def requiredKeys (shape_type : String) : List String :=
  if shape_type = "circle" then ["r"]
  else if shape_type = "square" then ["L"]
  else if shape_type = "rectangle" then ["l", "w"]
  else if shape_type = "triangle" then ["a"]
  else if shape_type = "semi-circle" then ["r"]
  else []

/-- Total number of placed shapes across all sheets of a result. -/
def totalPlaced (sheets : List (List PlacedShape)) : ℕ :=
  (sheets.map List.length).sum

/-- The exact value of the IEEE-754 double `math.sqrt(3)`
(= 1.7320508075688772…, `0x1.bb67ae8584caap+0`). -/
def fsqrt3 : ℚ := 3900231685776981 / 2251799813685248

/-- The exact value of the IEEE-754 double `math.pi`. -/
def fpi : ℚ := 884279719003555 / 281474976710656

/-- The sheet the circle scenario of the spec (r = 0.1, clearance 0,
sheet 1.0 × 1.0) must produce: rows 0..4 at `y = 0.1 + row·dy` with
`dy = 0.2·√3/2`; even rows with 5 columns at x = 0.1, 0.3, 0.5, 0.7,
0.9; odd rows offset by dx/2 = 0.1 with 4 columns at x = 0.2, 0.4,
0.6, 0.8 — 23 shapes in row-major order. -/
def c7sheet : List PlacedShape := [
  ⟨"circle", [("r", 1/10)], 1/10, 1/10⟩,
  ⟨"circle", [("r", 1/10)], 3/10, 1/10⟩,
  ⟨"circle", [("r", 1/10)], 1/2, 1/10⟩,
  ⟨"circle", [("r", 1/10)], 7/10, 1/10⟩,
  ⟨"circle", [("r", 1/10)], 9/10, 1/10⟩,
  ⟨"circle", [("r", 1/10)], 1/5, 1/10 + 1 * (1/5 * fsqrt3 / 2)⟩,
  ⟨"circle", [("r", 1/10)], 2/5, 1/10 + 1 * (1/5 * fsqrt3 / 2)⟩,
  ⟨"circle", [("r", 1/10)], 3/5, 1/10 + 1 * (1/5 * fsqrt3 / 2)⟩,
  ⟨"circle", [("r", 1/10)], 4/5, 1/10 + 1 * (1/5 * fsqrt3 / 2)⟩,
  ⟨"circle", [("r", 1/10)], 1/10, 1/10 + 2 * (1/5 * fsqrt3 / 2)⟩,
  ⟨"circle", [("r", 1/10)], 3/10, 1/10 + 2 * (1/5 * fsqrt3 / 2)⟩,
  ⟨"circle", [("r", 1/10)], 1/2, 1/10 + 2 * (1/5 * fsqrt3 / 2)⟩,
  ⟨"circle", [("r", 1/10)], 7/10, 1/10 + 2 * (1/5 * fsqrt3 / 2)⟩,
  ⟨"circle", [("r", 1/10)], 9/10, 1/10 + 2 * (1/5 * fsqrt3 / 2)⟩,
  ⟨"circle", [("r", 1/10)], 1/5, 1/10 + 3 * (1/5 * fsqrt3 / 2)⟩,
  ⟨"circle", [("r", 1/10)], 2/5, 1/10 + 3 * (1/5 * fsqrt3 / 2)⟩,
  ⟨"circle", [("r", 1/10)], 3/5, 1/10 + 3 * (1/5 * fsqrt3 / 2)⟩,
  ⟨"circle", [("r", 1/10)], 4/5, 1/10 + 3 * (1/5 * fsqrt3 / 2)⟩,
  ⟨"circle", [("r", 1/10)], 1/10, 1/10 + 4 * (1/5 * fsqrt3 / 2)⟩,
  ⟨"circle", [("r", 1/10)], 3/10, 1/10 + 4 * (1/5 * fsqrt3 / 2)⟩,
  ⟨"circle", [("r", 1/10)], 1/2, 1/10 + 4 * (1/5 * fsqrt3 / 2)⟩,
  ⟨"circle", [("r", 1/10)], 7/10, 1/10 + 4 * (1/5 * fsqrt3 / 2)⟩,
  ⟨"circle", [("r", 1/10)], 9/10, 1/10 + 4 * (1/5 * fsqrt3 / 2)⟩]

/-! ### Structural facts about the grid geometry -/

theorem yOf_eq (ty : String) (params : Params) (r L a dy s3 : ℚ) (row : ℕ) :
    yOf ty params r L a dy s3 row =
      firstRowOffset ty params r L a s3 + row * dy := by
  unfold yOf firstRowOffset; split_ifs <;> ring

theorem yLimitOf_eq (ty : String) (params : Params) (r L a s3 sh : ℚ) :
    yLimitOf ty params r L a s3 sh = sh - trailExtY ty params r L a s3 := by
  unfold yLimitOf trailExtY; split_ifs <;> ring

theorem xOf_eq (ty : String) (params : Params) (r L a dx off : ℚ) (col : ℕ) :
    xOf ty params r L a dx off col =
      off + halfExtentX ty params r L a + col * dx := by
  unfold xOf halfExtentX; split_ifs <;> ring

theorem xBoundOf_eq (ty : String) (params : Params) (r L a sw : ℚ) :
    xBoundOf ty params r L a sw = sw - halfExtentX ty params r L a := by
  unfold xBoundOf halfExtentX; split_ifs <;> ring

theorem xOffsetOf_nonneg (ty : String) (dx : ℚ) (hdx : 0 ≤ dx) (row : ℕ) :
    0 ≤ xOffsetOf ty dx row := by
  unfold xOffsetOf; split_ifs <;> linarith

theorem xOffsetOf_row0 (ty : String) (dx : ℚ) : xOffsetOf ty dx 0 = 0 := by
  unfold xOffsetOf; norm_num

/-! ### Column-loop invariants -/

theorem colLoop_nil_of_gt (ty : String) (params : Params)
    (r L a dx sw off y : ℚ) (remaining col : ℕ)
    (hx : xOf ty params r L a dx off col > xBoundOf ty params r L a sw) :
    colLoop ty params r L a dx sw off y remaining col = [] := by
  rw [colLoop.eq_def]; simp [hx]

theorem colLoop_cons (ty : String) (params : Params)
    (r L a dx sw off y : ℚ) (rem col : ℕ)
    (hx : ¬ xOf ty params r L a dx off col > xBoundOf ty params r L a sw) :
    colLoop ty params r L a dx sw off y (rem + 1) col =
      ⟨ty, params, xOf ty params r L a dx off col, y⟩ ::
        colLoop ty params r L a dx sw off y rem (col + 1) := by
  rw [colLoop.eq_def]; simp [hx]

theorem colLoop_length_le (ty : String) (params : Params)
    (r L a dx sw off y : ℚ) :
    ∀ remaining col,
      (colLoop ty params r L a dx sw off y remaining col).length ≤ remaining := by
  intro remaining
  induction remaining with
  | zero => intro col; rw [colLoop.eq_def]; dsimp only; split_ifs <;> simp
  | succ rem ih =>
    intro col
    by_cases hx : xOf ty params r L a dx off col > xBoundOf ty params r L a sw
    · rw [colLoop_nil_of_gt ty params r L a dx sw off y _ _ hx]; simp
    · rw [colLoop_cons ty params r L a dx sw off y _ _ hx]
      simpa using ih (col + 1)

theorem colLoop_mem (ty : String) (params : Params)
    (r L a dx sw off y : ℚ) :
    ∀ remaining col s, s ∈ colLoop ty params r L a dx sw off y remaining col →
      ∃ c, s = ⟨ty, params, xOf ty params r L a dx off c, y⟩ ∧
        ¬ xOf ty params r L a dx off c > xBoundOf ty params r L a sw := by
  intro remaining
  induction remaining with
  | zero =>
    intro col s hs
    rw [colLoop.eq_def] at hs
    dsimp only at hs
    split_ifs at hs <;> simp at hs
  | succ rem ih =>
    intro col s hs
    by_cases hx : xOf ty params r L a dx off col > xBoundOf ty params r L a sw
    · rw [colLoop_nil_of_gt ty params r L a dx sw off y _ _ hx] at hs
      simp at hs
    · rw [colLoop_cons ty params r L a dx sw off y _ _ hx] at hs
      rcases List.mem_cons.mp hs with h | h
      · exact ⟨col, h, hx⟩
      · exact ih (col + 1) s h

/-! ### Row-loop invariants -/

theorem rowLoop_zero {ty : String} {params : Params} {r L a dx dy sw sh s3 : ℚ}
    {remaining row : ℕ} :
    rowLoop ty params r L a dx dy sw sh s3 0 remaining row = none := rfl

theorem rowLoop_break {ty : String} {params : Params} {r L a dx dy sw sh s3 : ℚ}
    {row : ℕ} (fuel remaining : ℕ)
    (hy : yOf ty params r L a dy s3 row > yLimitOf ty params r L a s3 sh) :
    rowLoop ty params r L a dx dy sw sh s3 (fuel + 1) remaining row = some [] := by
  rw [rowLoop.eq_def]; dsimp only; rw [if_pos hy]

theorem rowLoop_step {ty : String} {params : Params} {r L a dx dy sw sh s3 : ℚ}
    {row : ℕ} (fuel remaining : ℕ)
    (hy : ¬ yOf ty params r L a dy s3 row > yLimitOf ty params r L a s3 sh) :
    rowLoop ty params r L a dx dy sw sh s3 (fuel + 1) remaining row =
      (if remaining - (colLoop ty params r L a dx sw (xOffsetOf ty dx row)
            (yOf ty params r L a dy s3 row) remaining 0).length = 0 then
        some (colLoop ty params r L a dx sw (xOffsetOf ty dx row)
          (yOf ty params r L a dy s3 row) remaining 0)
      else
        match rowLoop ty params r L a dx dy sw sh s3 fuel
            (remaining - (colLoop ty params r L a dx sw (xOffsetOf ty dx row)
              (yOf ty params r L a dy s3 row) remaining 0).length) (row + 1) with
        | none => none
        | some rest =>
          some ((colLoop ty params r L a dx sw (xOffsetOf ty dx row)
            (yOf ty params r L a dy s3 row) remaining 0) ++ rest)) := by
  rw [rowLoop.eq_def]; dsimp only; rw [if_neg hy]

theorem rowLoop_length_le {ty : String} {params : Params}
    {r L a dx dy sw sh s3 : ℚ} :
    ∀ fuel remaining row l,
      rowLoop ty params r L a dx dy sw sh s3 fuel remaining row = some l →
      l.length ≤ remaining := by
  intro fuel
  induction fuel with
  | zero => intro remaining row l h; rw [rowLoop_zero] at h; cases h
  | succ fuel ih =>
    intro remaining row l h
    by_cases hy : yOf ty params r L a dy s3 row > yLimitOf ty params r L a s3 sh
    · rw [rowLoop_break fuel remaining hy] at h
      cases h; simp
    · rw [rowLoop_step fuel remaining hy] at h
      have hcl := colLoop_length_le ty params r L a dx sw (xOffsetOf ty dx row)
        (yOf ty params r L a dy s3 row) remaining 0
      split_ifs at h with hrem
      · cases h; exact hcl
      · cases hrec : rowLoop ty params r L a dx dy sw sh s3 fuel
            (remaining - (colLoop ty params r L a dx sw (xOffsetOf ty dx row)
              (yOf ty params r L a dy s3 row) remaining 0).length) (row + 1) with
        | none => rw [hrec] at h; cases h
        | some rest =>
          rw [hrec] at h
          cases h
          have := ih _ _ _ hrec
          simp only [List.length_append]
          omega

theorem rowLoop_mem {ty : String} {params : Params}
    {r L a dx dy sw sh s3 : ℚ} :
    ∀ fuel remaining row l s,
      rowLoop ty params r L a dx dy sw sh s3 fuel remaining row = some l →
      s ∈ l →
      ∃ row' c,
        s = ⟨ty, params,
              xOf ty params r L a dx (xOffsetOf ty dx row') c,
              yOf ty params r L a dy s3 row'⟩ ∧
        ¬ yOf ty params r L a dy s3 row' > yLimitOf ty params r L a s3 sh ∧
        ¬ xOf ty params r L a dx (xOffsetOf ty dx row') c >
            xBoundOf ty params r L a sw := by
  intro fuel
  induction fuel with
  | zero => intro remaining row l s h _; rw [rowLoop_zero] at h; cases h
  | succ fuel ih =>
    intro remaining row l s h hs
    by_cases hy : yOf ty params r L a dy s3 row > yLimitOf ty params r L a s3 sh
    · rw [rowLoop_break fuel remaining hy] at h
      cases h; simp at hs
    · rw [rowLoop_step fuel remaining hy] at h
      split_ifs at h with hrem
      · cases h
        obtain ⟨c, hc, hb⟩ := colLoop_mem ty params r L a dx sw
          (xOffsetOf ty dx row) (yOf ty params r L a dy s3 row) remaining 0 s hs
        exact ⟨row, c, hc, hy, hb⟩
      · cases hrec : rowLoop ty params r L a dx dy sw sh s3 fuel
            (remaining - (colLoop ty params r L a dx sw (xOffsetOf ty dx row)
              (yOf ty params r L a dy s3 row) remaining 0).length) (row + 1) with
        | none => rw [hrec] at h; cases h
        | some rest =>
          rw [hrec] at h
          cases h
          rcases List.mem_append.mp hs with hmem | hmem
          · obtain ⟨c, hc, hb⟩ := colLoop_mem ty params r L a dx sw
              (xOffsetOf ty dx row) (yOf ty params r L a dy s3 row) remaining 0 s hmem
            exact ⟨row, c, hc, hy, hb⟩
          · exact ih _ _ _ _ hrec hmem

theorem rowLoop_ne_none {ty : String} {params : Params}
    {r L a dx dy sw sh s3 : ℚ} :
    ∀ fuel remaining row,
      (∃ n, n < fuel ∧
        yOf ty params r L a dy s3 (row + n) > yLimitOf ty params r L a s3 sh) →
      rowLoop ty params r L a dx dy sw sh s3 fuel remaining row ≠ none := by
  intro fuel
  induction fuel with
  | zero => intro remaining row h; obtain ⟨n, hn, _⟩ := h; omega
  | succ fuel ih =>
    intro remaining row h
    by_cases hy : yOf ty params r L a dy s3 row > yLimitOf ty params r L a s3 sh
    · rw [rowLoop_break fuel remaining hy]; simp
    · rw [rowLoop_step fuel remaining hy]
      split_ifs with hrem
      · simp
      · obtain ⟨n, hn, hgt⟩ := h
        have hn0 : n ≠ 0 := by
          rintro rfl
          simp at hgt
          exact hy (by simpa using hgt)
        obtain ⟨m, rfl⟩ := Nat.exists_eq_succ_of_ne_zero hn0
        have : rowLoop ty params r L a dx dy sw sh s3 fuel
            (remaining - (colLoop ty params r L a dx sw (xOffsetOf ty dx row)
              (yOf ty params r L a dy s3 row) remaining 0).length) (row + 1) ≠ none := by
          apply ih
          exact ⟨m, by omega, by
            have : row + 1 + m = row + (m + 1) := by omega
            rw [this]; exact hgt⟩
        cases hrec : rowLoop ty params r L a dx dy sw sh s3 fuel
            (remaining - (colLoop ty params r L a dx sw (xOffsetOf ty dx row)
              (yOf ty params r L a dy s3 row) remaining 0).length) (row + 1) with
        | none => exact absurd hrec this
        | some rest => simp

theorem rowLoop_nonempty {ty : String} {params : Params}
    {r L a dx dy sw sh s3 : ℚ} {fuel rem : ℕ} {l : List PlacedShape}
    (hy : ¬ yOf ty params r L a dy s3 0 > yLimitOf ty params r L a s3 sh)
    (hx : ¬ xOf ty params r L a dx 0 0 > xBoundOf ty params r L a sw)
    (h : rowLoop ty params r L a dx dy sw sh s3 fuel (rem + 1) 0 = some l) :
    l ≠ [] := by
  cases fuel with
  | zero => rw [rowLoop_zero] at h; cases h
  | succ fuel =>
    rw [rowLoop_step fuel (rem + 1) hy] at h
    rw [xOffsetOf_row0 ty dx] at h
    rw [colLoop_cons ty params r L a dx sw 0
      (yOf ty params r L a dy s3 0) rem 0 hx] at h
    split_ifs at h with hrem
    · cases h; simp
    · cases hrec : rowLoop ty params r L a dx dy sw sh s3 fuel
          ((rem + 1) - (⟨ty, params, xOf ty params r L a dx 0 0,
            yOf ty params r L a dy s3 0⟩ ::
            colLoop ty params r L a dx sw 0
              (yOf ty params r L a dy s3 0) rem 1).length) 1 with
      | none => rw [hrec] at h; cases h
      | some rest => rw [hrec] at h; cases h; simp

theorem rowLoop_all_nil {ty : String} {params : Params}
    {r L a dx dy sw sh s3 : ℚ}
    (hall : ∀ row rem,
      colLoop ty params r L a dx sw (xOffsetOf ty dx row)
        (yOf ty params r L a dy s3 row) rem 0 = []) :
    ∀ fuel remaining row l,
      rowLoop ty params r L a dx dy sw sh s3 fuel remaining row = some l →
      l = [] := by
  intro fuel
  induction fuel with
  | zero => intro remaining row l h; rw [rowLoop_zero] at h; cases h
  | succ fuel ih =>
    intro remaining row l h
    by_cases hy : yOf ty params r L a dy s3 row > yLimitOf ty params r L a s3 sh
    · rw [rowLoop_break fuel remaining hy] at h; cases h; rfl
    · rw [rowLoop_step fuel remaining hy] at h
      rw [hall row remaining] at h
      split_ifs at h with hrem
      · cases h; rfl
      · cases hrec : rowLoop ty params r L a dx dy sw sh s3 fuel
            (remaining - ([] : List PlacedShape).length) (row + 1) with
        | none => rw [hrec] at h; cases h
        | some rest =>
          rw [hrec] at h
          cases h
          simpa using ih _ _ _ hrec

theorem rowFuel_spec {ty : String} {params : Params} {r L a dy s3 sh : ℚ}
    (hdy : 0 < dy) (h0 : 0 ≤ firstRowOffset ty params r L a s3)
    (htrail : 0 ≤ trailExtY ty params r L a s3) :
    ∃ n, n < rowFuel sh dy ∧
      yOf ty params r L a dy s3 (0 + n) > yLimitOf ty params r L a s3 sh := by
  refine ⟨(⌊sh / dy⌋).toNat + 1, by unfold rowFuel; omega, ?_⟩
  rw [yOf_eq, yLimitOf_eq]
  have hself : (⌊sh / dy⌋ : ℚ) ≤ ((⌊sh / dy⌋).toNat : ℚ) := by
    exact_mod_cast Int.self_le_toNat ⌊sh / dy⌋
  have hn : sh / dy < ((⌊sh / dy⌋).toNat + 1 : ℚ) := by
    have := Int.lt_floor_add_one (sh / dy)
    linarith
  have hmul : sh < ((⌊sh / dy⌋).toNat + 1 : ℚ) * dy := by
    rw [div_lt_iff₀ hdy] at hn; linarith
  push_cast
  linarith

/-! ### Sheet-loop invariants -/

theorem sheetLoop_zero_rem {ty : String} {params : Params}
    {r L a dx dy sw sh s3 : ℚ} (fuel gas : ℕ) :
    sheetLoop ty params r L a dx dy sw sh s3 fuel gas 0 = .ok [] := by
  cases gas <;> rfl

theorem sheetLoop_succ {ty : String} {params : Params}
    {r L a dx dy sw sh s3 : ℚ} (fuel gas remaining : ℕ)
    (hrem : ¬ remaining = 0) :
    sheetLoop ty params r L a dx dy sw sh s3 fuel (gas + 1) remaining =
      (match rowLoop ty params r L a dx dy sw sh s3 fuel remaining 0 with
      | none => .error .nonTermination
      | some sheet_positions =>
        if sheet_positions = [] then .error .runtimeError
        else
          match sheetLoop ty params r L a dx dy sw sh s3 fuel gas
              (remaining - sheet_positions.length) with
          | .error e => .error e
          | .ok sheets => .ok (sheet_positions :: sheets)) := by
  rw [sheetLoop.eq_def]; dsimp only; rw [if_neg hrem]

theorem sheetLoop_length_le {ty : String} {params : Params}
    {r L a dx dy sw sh s3 : ℚ} :
    ∀ gas remaining sheets fuel,
      sheetLoop ty params r L a dx dy sw sh s3 fuel gas remaining = .ok sheets →
      sheets.length ≤ remaining := by
  intro gas
  induction gas with
  | zero =>
    intro remaining sheets fuel h
    rw [sheetLoop.eq_def] at h; dsimp only at h
    split_ifs at h with hrem
    cases h; simp
  | succ gas ih =>
    intro remaining sheets fuel h
    by_cases hrem : remaining = 0
    · subst hrem; rw [sheetLoop_zero_rem] at h; cases h; simp
    · rw [sheetLoop_succ fuel gas remaining hrem] at h
      cases hrow : rowLoop ty params r L a dx dy sw sh s3 fuel remaining 0 with
      | none => rw [hrow] at h; simp at h
      | some poss =>
        rw [hrow] at h
        dsimp only at h
        split_ifs at h with hposs
        cases hrec : sheetLoop ty params r L a dx dy sw sh s3 fuel gas
            (remaining - poss.length) with
        | error e => rw [hrec] at h; simp at h
        | ok sheets' =>
          rw [hrec] at h
          dsimp only at h
          cases h
          have hlen : 1 ≤ poss.length := List.length_pos.mpr hposs
          have := ih _ _ _ hrec
          simp only [List.length_cons]
          omega

theorem sheetLoop_total {ty : String} {params : Params}
    {r L a dx dy sw sh s3 : ℚ} {fuel : ℕ}
    (hnn : ∀ rem, rem ≠ 0 →
      rowLoop ty params r L a dx dy sw sh s3 fuel rem 0 ≠ none)
    (hne : ∀ rem l, rem ≠ 0 →
      rowLoop ty params r L a dx dy sw sh s3 fuel rem 0 = some l → l ≠ []) :
    ∀ gas remaining, remaining ≤ gas →
      ∃ sheets,
        sheetLoop ty params r L a dx dy sw sh s3 fuel gas remaining = .ok sheets ∧
        totalPlaced sheets = remaining := by
  intro gas
  induction gas with
  | zero =>
    intro remaining hle
    have : remaining = 0 := by omega
    subst this
    exact ⟨[], sheetLoop_zero_rem fuel 0, rfl⟩
  | succ gas ih =>
    intro remaining hle
    by_cases hrem : remaining = 0
    · subst hrem; exact ⟨[], sheetLoop_zero_rem fuel (gas + 1), rfl⟩
    · rw [sheetLoop_succ fuel gas remaining hrem]
      cases hrow : rowLoop ty params r L a dx dy sw sh s3 fuel remaining 0 with
      | none => exact absurd hrow (hnn remaining hrem)
      | some poss =>
        have hposs : poss ≠ [] := hne remaining poss hrem hrow
        have hlen : poss.length ≤ remaining := rowLoop_length_le fuel remaining 0 poss hrow
        have h1 : 1 ≤ poss.length := List.length_pos.mpr hposs
        obtain ⟨sheets, hsh, htot⟩ := ih (remaining - poss.length) (by omega)
        refine ⟨poss :: sheets, ?_, ?_⟩
        · dsimp only
          rw [if_neg hposs, hsh]
        · simp only [totalPlaced, List.map_cons, List.sum_cons] at htot ⊢
          omega

theorem sheetLoop_cases {ty : String} {params : Params}
    {r L a dx dy sw sh s3 : ℚ} {fuel : ℕ}
    (hnn : ∀ rem, rem ≠ 0 →
      rowLoop ty params r L a dx dy sw sh s3 fuel rem 0 ≠ none) :
    ∀ gas remaining, remaining ≤ gas →
      (∃ sheets,
        sheetLoop ty params r L a dx dy sw sh s3 fuel gas remaining = .ok sheets) ∨
      sheetLoop ty params r L a dx dy sw sh s3 fuel gas remaining =
        .error .runtimeError := by
  intro gas
  induction gas with
  | zero =>
    intro remaining hle
    have : remaining = 0 := by omega
    subst this
    exact .inl ⟨[], sheetLoop_zero_rem fuel 0⟩
  | succ gas ih =>
    intro remaining hle
    by_cases hrem : remaining = 0
    · subst hrem; exact .inl ⟨[], sheetLoop_zero_rem fuel (gas + 1)⟩
    · rw [sheetLoop_succ fuel gas remaining hrem]
      cases hrow : rowLoop ty params r L a dx dy sw sh s3 fuel remaining 0 with
      | none => exact absurd hrow (hnn remaining hrem)
      | some poss =>
        dsimp only
        by_cases hposs : poss = []
        · rw [if_pos hposs]; exact .inr rfl
        · rw [if_neg hposs]
          have hlen : poss.length ≤ remaining := rowLoop_length_le fuel remaining 0 poss hrow
          have h1 : 1 ≤ poss.length := List.length_pos.mpr hposs
          rcases ih (remaining - poss.length) (by omega) with ⟨sheets, hsh⟩ | herr
          · rw [hsh]; exact .inl ⟨poss :: sheets, rfl⟩
          · rw [herr]; exact .inr rfl

theorem sheetLoop_mem {ty : String} {params : Params}
    {r L a dx dy sw sh s3 : ℚ} :
    ∀ gas remaining sheets fuel,
      sheetLoop ty params r L a dx dy sw sh s3 fuel gas remaining = .ok sheets →
      ∀ sheet ∈ sheets, ∃ rem,
        rowLoop ty params r L a dx dy sw sh s3 fuel rem 0 = some sheet := by
  intro gas
  induction gas with
  | zero =>
    intro remaining sheets fuel h
    rw [sheetLoop.eq_def] at h; dsimp only at h
    split_ifs at h with hrem
    cases h; intro sheet hsheet; simp at hsheet
  | succ gas ih =>
    intro remaining sheets fuel h
    by_cases hrem : remaining = 0
    · subst hrem; rw [sheetLoop_zero_rem] at h; cases h
      intro sheet hsheet; simp at hsheet
    · rw [sheetLoop_succ fuel gas remaining hrem] at h
      cases hrow : rowLoop ty params r L a dx dy sw sh s3 fuel remaining 0 with
      | none => rw [hrow] at h; simp at h
      | some poss =>
        rw [hrow] at h
        dsimp only at h
        split_ifs at h with hposs
        cases hrec : sheetLoop ty params r L a dx dy sw sh s3 fuel gas
            (remaining - poss.length) with
        | error e => rw [hrec] at h; simp at h
        | ok sheets' =>
          rw [hrec] at h
          dsimp only at h
          cases h
          intro sheet hsheet
          rcases List.mem_cons.mp hsheet with hhd | htl
          · exact ⟨remaining, hhd ▸ hrow⟩
          · exact ih _ _ _ hrec sheet htl

/-! ### From `pack_shapes` to the loops, and per-kind pitch facts -/

theorem pack_eq {ty : String} {params : Params} {sw sh c s3 : ℚ} {p : Pitch}
    (num : ℕ) (hp : computeIncrements ty params sw sh c s3 = .ok p) :
    pack_shapes ty params num sw sh c s3 =
      sheetLoop ty p.params p.r p.L p.a p.dx p.dy sw sh s3
        (rowFuel sh p.dy) num num := by
  unfold pack_shapes; rw [hp]

theorem computeIncrements_circle {params : Params} {r : ℚ} (sw sh c s3 : ℚ)
    (hr : params.lookup "r" = some r) :
    computeIncrements "circle" params sw sh c s3 =
      .ok ⟨2 * r + c, (2 * r + c) * s3 / 2, params, r, 0, 0⟩ := by
  simp [computeIncrements, hr]

theorem computeIncrements_square {params : Params} {L : ℚ} (sw sh c s3 : ℚ)
    (hL : params.lookup "L" = some L) :
    computeIncrements "square" params sw sh c s3 =
      .ok ⟨L + c, L + c, params, 0, L, 0⟩ := by
  simp [computeIncrements, hL]

theorem computeIncrements_rectangle {params : Params} {l w : ℚ} (sw sh c s3 : ℚ)
    (hl : params.lookup "l" = some l) (hw : params.lookup "w" = some w) :
    computeIncrements "rectangle" params sw sh c s3 =
      (if pyInt (sh / (w + c)) * pyInt (sw / (l + c)) ≥
          pyInt (sh / (l + c)) * pyInt (sw / (w + c)) then
        .ok ⟨l + c, w + c, params, 0, 0, 0⟩
      else
        .ok ⟨w + c, w + c, [("l", w), ("w", l)], 0, 0, 0⟩) := by
  simp [computeIncrements, hl, hw]

theorem computeIncrements_triangle {params : Params} {a : ℚ} (sw sh c s3 : ℚ)
    (ha : params.lookup "a" = some a) :
    computeIncrements "triangle" params sw sh c s3 =
      .ok ⟨a + c, a * s3 / 2 + c, params, 0, 0, a⟩ := by
  simp [computeIncrements, ha]

theorem computeIncrements_semicircle {params : Params} {r : ℚ} (sw sh c s3 : ℚ)
    (hr : params.lookup "r" = some r) :
    computeIncrements "semi-circle" params sw sh c s3 =
      .ok ⟨2 * r + c, r + c, params, r, 0, 0⟩ := by
  simp [computeIncrements, hr]

theorem lookup_swapped_w (l w : ℚ) :
    (([("l", w), ("w", l)] : Params).lookup "w") = some l := rfl

theorem lookup_swapped_l (l w : ℚ) :
    (([("l", w), ("w", l)] : Params).lookup "l") = some w := rfl

theorem pitch_facts {ty : String} {params : Params} {sw sh c s3 : ℚ} {p : Pitch}
    (hvalid : validInput ty params) (hc : 0 ≤ c) (hs3 : 0 < s3)
    (hp : computeIncrements ty params sw sh c s3 = .ok p) :
    0 < p.dx ∧ 0 < p.dy ∧
    0 ≤ firstRowOffset ty p.params p.r p.L p.a s3 ∧
    0 ≤ trailExtY ty p.params p.r p.L p.a s3 ∧
    0 ≤ halfExtentX ty p.params p.r p.L p.a := by
  rcases hvalid with ⟨hty, r, hr, hrpos⟩ | ⟨hty, L, hL, hLpos⟩ |
    ⟨hty, l, w, hl, hw, hlpos, hwpos⟩ | ⟨hty, a, ha, hapos⟩ |
    ⟨hty, r, hr, hrpos⟩
  · subst hty
    rw [computeIncrements_circle sw sh c s3 hr] at hp
    cases hp
    dsimp only
    have h2 : 0 < 2 * r + c := by linarith
    refine ⟨h2, by positivity, ?_, ?_, ?_⟩ <;>
      simp [firstRowOffset, trailExtY, halfExtentX] <;> linarith
  · subst hty
    rw [computeIncrements_square sw sh c s3 hL] at hp
    cases hp
    dsimp only
    refine ⟨by linarith, by linarith, ?_, ?_, ?_⟩ <;>
      simp [firstRowOffset, trailExtY, halfExtentX] <;> linarith
  · subst hty
    rw [computeIncrements_rectangle sw sh c s3 hl hw] at hp
    split_ifs at hp with hor
    · cases hp
      dsimp only
      refine ⟨by linarith, by linarith, ?_, ?_, ?_⟩ <;>
        simp [firstRowOffset, trailExtY, halfExtentX, hl, hw] <;> linarith
    · cases hp
      dsimp only
      refine ⟨by linarith, by linarith, ?_, ?_, ?_⟩ <;>
        simp [firstRowOffset, trailExtY, halfExtentX,
          lookup_swapped_w, lookup_swapped_l] <;> linarith
  · subst hty
    rw [computeIncrements_triangle sw sh c s3 ha] at hp
    cases hp
    dsimp only
    have h2 : 0 < a * s3 / 2 := by positivity
    refine ⟨by linarith, by linarith, ?_, ?_, ?_⟩ <;>
      simp [firstRowOffset, trailExtY, halfExtentX] <;> positivity
  · subst hty
    rw [computeIncrements_semicircle sw sh c s3 hr] at hp
    cases hp
    dsimp only
    refine ⟨by linarith, by linarith, ?_, ?_, ?_⟩ <;>
      simp [firstRowOffset, trailExtY, halfExtentX] <;> linarith

theorem pack_mem {ty : String} {params : Params} {num : ℕ} {sw sh c s3 : ℚ}
    {p : Pitch} {sheets : List (List PlacedShape)}
    (hp : computeIncrements ty params sw sh c s3 = .ok p)
    (hpack : pack_shapes ty params num sw sh c s3 = .ok sheets) :
    ∀ sheet ∈ sheets, ∀ s ∈ sheet, ∃ row col,
      s = ⟨ty, p.params,
            xOf ty p.params p.r p.L p.a p.dx (xOffsetOf ty p.dx row) col,
            yOf ty p.params p.r p.L p.a p.dy s3 row⟩ ∧
      ¬ yOf ty p.params p.r p.L p.a p.dy s3 row >
          yLimitOf ty p.params p.r p.L p.a s3 sh ∧
      ¬ xOf ty p.params p.r p.L p.a p.dx (xOffsetOf ty p.dx row) col >
          xBoundOf ty p.params p.r p.L p.a sw := by
  rw [pack_eq num hp] at hpack
  intro sheet hsheet s hs
  obtain ⟨rem, hrow⟩ := sheetLoop_mem num num sheets (rowFuel sh p.dy)
    hpack sheet hsheet
  obtain ⟨row, col, hval, hy, hx⟩ :=
    rowLoop_mem (rowFuel sh p.dy) rem 0 sheet s hrow hs
  exact ⟨row, col, hval, hy, hx⟩

/-! ### Claims -/

/-- Claim C2, amended.  For every supported kind with strictly positive
parameters, clearance ≥ 0 and positive sheet height: if the requested
count is 0, `pack_shapes` returns an empty result (it does not raise);
if the requested count is positive and one shape fits at the grid
origin (per-sheet capacity > 0), the sheets' total placed count equals
the requested count exactly (not `min(requested, per-sheet capacity)`);
and if no shape fits (capacity = 0) it fails with `RuntimeError`
(the spec's UnplaceableShape). -/
theorem claim2_amended {ty : String} {params : Params} {sw sh c s3 : ℚ}
    {p : Pitch} (num : ℕ)
    (hvalid : validInput ty params) (hsh : 0 < sh) (hc : 0 ≤ c) (hs3 : 0 < s3)
    (hp : computeIncrements ty params sw sh c s3 = .ok p) :
    (num = 0 → pack_shapes ty params num sw sh c s3 = .ok []) ∧
    (0 < num → canPlaceOne ty p sw sh s3 →
      ∃ sheets, pack_shapes ty params num sw sh c s3 = .ok sheets ∧
        totalPlaced sheets = num ∧ sheets ≠ []) ∧
    (0 < num → ¬ canPlaceOne ty p sw sh s3 →
      pack_shapes ty params num sw sh c s3 = .error .runtimeError) := by
  obtain ⟨hdx, hdy, h0, htrail, hhalf⟩ := pitch_facts hvalid hc hs3 hp
  rw [pack_eq num hp]
  refine ⟨?_, ?_, ?_⟩
  · rintro rfl
    exact sheetLoop_zero_rem _ 0
  · intro hnum hcan
    obtain ⟨hy, hx⟩ := hcan
    have hnn : ∀ rem, rem ≠ 0 →
        rowLoop ty p.params p.r p.L p.a p.dx p.dy sw sh s3
          (rowFuel sh p.dy) rem 0 ≠ none := by
      intro rem _
      exact rowLoop_ne_none (rowFuel sh p.dy) rem 0 (rowFuel_spec hdy h0 htrail)
    have hne : ∀ rem l, rem ≠ 0 →
        rowLoop ty p.params p.r p.L p.a p.dx p.dy sw sh s3
          (rowFuel sh p.dy) rem 0 = some l → l ≠ [] := by
      intro rem l hrem hl
      obtain ⟨m, rfl⟩ := Nat.exists_eq_succ_of_ne_zero hrem
      exact rowLoop_nonempty (not_lt.mpr hy) (not_lt.mpr hx) hl
    obtain ⟨sheets, hsheets, htot⟩ := sheetLoop_total hnn hne num num le_rfl
    refine ⟨sheets, hsheets, htot, ?_⟩
    rintro rfl
    simp [totalPlaced] at htot
    omega
  · intro hnum hcan
    obtain ⟨m, rfl⟩ := Nat.exists_eq_succ_of_ne_zero (Nat.pos_iff_ne_zero.mp hnum)
    unfold canPlaceOne at hcan
    rw [not_and_or] at hcan
    rcases hcan with hy | hx
    · push_neg at hy
      have hrow : rowLoop ty p.params p.r p.L p.a p.dx p.dy sw sh s3
          (rowFuel sh p.dy) (m + 1) 0 = some [] := by
        have hfuel : rowFuel sh p.dy = (⌊sh / p.dy⌋).toNat + 1 + 1 := rfl
        rw [hfuel]
        exact rowLoop_break ((⌊sh / p.dy⌋).toNat + 1) (m + 1) hy
      rw [sheetLoop_succ (rowFuel sh p.dy) m (m + 1) (Nat.succ_ne_zero m), hrow]
      simp
    · push_neg at hx
      have hall : ∀ row rem, colLoop ty p.params p.r p.L p.a p.dx sw
          (xOffsetOf ty p.dx row)
          (yOf ty p.params p.r p.L p.a p.dy s3 row) rem 0 = [] := by
        intro row rem
        apply colLoop_nil_of_gt
        have hoff := xOffsetOf_nonneg ty p.dx hdx.le row
        rw [xOf_eq] at hx ⊢
        push_cast at hx ⊢
        linarith
      have hnn : rowLoop ty p.params p.r p.L p.a p.dx p.dy sw sh s3
          (rowFuel sh p.dy) (m + 1) 0 ≠ none :=
        rowLoop_ne_none (rowFuel sh p.dy) (m + 1) 0 (rowFuel_spec hdy h0 htrail)
      cases hrow : rowLoop ty p.params p.r p.L p.a p.dx p.dy sw sh s3
          (rowFuel sh p.dy) (m + 1) 0 with
      | none => exact absurd hrow hnn
      | some l =>
        have hl : l = [] := rowLoop_all_nil hall (rowFuel sh p.dy) (m + 1) 0 l hrow
        subst hl
        rw [sheetLoop_succ (rowFuel sh p.dy) m (m + 1) (Nat.succ_ne_zero m), hrow]
        simp

/-- Claim C6 (confirmed).  Every record placed by `pack_shapes` keeps
its center inside the sheet margins: on the x axis between the leading
half-extent and `sheet_w` minus it, and on the y axis between the
first-row offset (leading half-extent, `h/3` for the triangle) and
`sheet_h` minus the trailing half-extent (`2h/3` for the triangle). -/
theorem claim6_bounds {ty : String} {params : Params} {num : ℕ}
    {sw sh c s3 : ℚ} {p : Pitch} {sheets : List (List PlacedShape)}
    (hvalid : validInput ty params) (hsw : 0 < sw) (hsh : 0 < sh)
    (hc : 0 ≤ c) (hs3 : 0 < s3)
    (hp : computeIncrements ty params sw sh c s3 = .ok p)
    (hpack : pack_shapes ty params num sw sh c s3 = .ok sheets) :
    ∀ sheet ∈ sheets, ∀ s ∈ sheet,
      halfExtentX ty s.params p.r p.L p.a ≤ s.x ∧
      s.x ≤ sw - halfExtentX ty s.params p.r p.L p.a ∧
      firstRowOffset ty s.params p.r p.L p.a s3 ≤ s.y ∧
      s.y ≤ sh - trailExtY ty s.params p.r p.L p.a s3 := by
  obtain ⟨hdx, hdy, h0, htrail, hhalf⟩ := pitch_facts hvalid hc hs3 hp
  intro sheet hsheet s hs
  obtain ⟨row, col, hsval, hy, hx⟩ := pack_mem hp hpack sheet hsheet s hs
  subst hsval
  dsimp only
  rw [not_lt, xBoundOf_eq] at hx
  rw [not_lt, yLimitOf_eq] at hy
  have hoff := xOffsetOf_nonneg ty p.dx hdx.le row
  have hcol : (0 : ℚ) ≤ col * p.dx := mul_nonneg (by positivity) hdx.le
  have hrow : (0 : ℚ) ≤ row * p.dy := mul_nonneg (by positivity) hdy.le
  refine ⟨?_, hx, ?_, hy⟩
  · rw [xOf_eq]; linarith
  · rw [yOf_eq]; linarith

/-- Claim C4, amended.  Every record placed by `pack_shapes` has
center-y equal to `first_row_offset + row·dy` for some row index, where
`first_row_offset` is the raw (NOT clearance-inflated) leading
half-extent: `r` for circle and semicircle, `L/2` for square, stored
`w/2` for rectangle, and `h/3` for the triangle.  (For clearance > 0
the first circle row is centered at `r`, not at `r + clearance/2`.) -/
theorem claim4_amended {ty : String} {params : Params} {num : ℕ}
    {sw sh c s3 : ℚ} {p : Pitch} {sheets : List (List PlacedShape)}
    (hp : computeIncrements ty params sw sh c s3 = .ok p)
    (hpack : pack_shapes ty params num sw sh c s3 = .ok sheets) :
    ∀ sheet ∈ sheets, ∀ s ∈ sheet, ∃ row : ℕ,
      s.y = firstRowOffset ty p.params p.r p.L p.a s3 + row * p.dy := by
  intro sheet hsheet s hs
  obtain ⟨row, col, hsval, hy, hx⟩ := pack_mem hp hpack sheet hsheet s hs
  subst hsval
  exact ⟨row, yOf_eq ty p.params p.r p.L p.a p.dy s3 row⟩

/-- Claim C8 (confirmed).  For every supported kind with strictly
positive parameters, clearance ≥ 0, positive sheet dimensions and any
requested count, `pack_shapes` terminates: the model's fuel (which
dominates the row count since `dy > 0`) is never exhausted, the result
is either a packing or the `RuntimeError` of line 145, and the number
of sheets opened never exceeds the requested count (every appended
sheet holds at least one shape). -/
theorem claim8_termination {ty : String} {params : Params} {sw sh c s3 : ℚ}
    {p : Pitch} (num : ℕ)
    (hvalid : validInput ty params) (hsw : 0 < sw) (hsh : 0 < sh)
    (hc : 0 ≤ c) (hs3 : 0 < s3)
    (hp : computeIncrements ty params sw sh c s3 = .ok p) :
    (∃ sheets, pack_shapes ty params num sw sh c s3 = .ok sheets ∧
      sheets.length ≤ num) ∨
    pack_shapes ty params num sw sh c s3 = .error .runtimeError := by
  obtain ⟨hdx, hdy, h0, htrail, hhalf⟩ := pitch_facts hvalid hc hs3 hp
  rw [pack_eq num hp]
  have hnn : ∀ rem, rem ≠ 0 →
      rowLoop ty p.params p.r p.L p.a p.dx p.dy sw sh s3
        (rowFuel sh p.dy) rem 0 ≠ none := by
    intro rem _
    exact rowLoop_ne_none (rowFuel sh p.dy) rem 0 (rowFuel_spec hdy h0 htrail)
  rcases sheetLoop_cases hnn num num le_rfl with ⟨sheets, hsheets⟩ | herr
  · exact .inl ⟨sheets, hsheets,
      sheetLoop_length_le num num sheets (rowFuel sh p.dy) hsheets⟩
  · exact .inr herr

/-- Claim C5, amended.  If a required shape parameter is missing from
the params mapping, `computeIncrements` — and hence `pack_shapes` —
fails immediately, before any grid iteration, with the key error of the
first missing key Python would read.  (Non-positive parameter values
are NOT rejected by the core; see the counterexample.) -/
theorem claim5_amended {ty : String} {params : Params} (num : ℕ)
    (sw sh c s3 : ℚ)
    (hty : ty ∈ (["circle", "square", "rectangle", "triangle",
      "semi-circle"] : List String))
    (hmiss : ∃ k ∈ requiredKeys ty, params.lookup k = none) :
    ∃ k ∈ requiredKeys ty,
      computeIncrements ty params sw sh c s3 = .error (.keyError k) ∧
      pack_shapes ty params num sw sh c s3 = .error (.keyError k) := by
  have hpk : ∀ e, computeIncrements ty params sw sh c s3 = .error e →
      pack_shapes ty params num sw sh c s3 = .error e := by
    intro e he; unfold pack_shapes; rw [he]
  fin_cases hty
  · obtain ⟨k, hk, hnone⟩ := hmiss
    simp [requiredKeys] at hk
    subst hk
    have hci : computeIncrements "circle" params sw sh c s3 =
        .error (.keyError "r") := by simp [computeIncrements, hnone]
    exact ⟨"r", by simp [requiredKeys], hci, hpk _ hci⟩
  · obtain ⟨k, hk, hnone⟩ := hmiss
    simp [requiredKeys] at hk
    subst hk
    have hci : computeIncrements "square" params sw sh c s3 =
        .error (.keyError "L") := by simp [computeIncrements, hnone]
    exact ⟨"L", by simp [requiredKeys], hci, hpk _ hci⟩
  · obtain ⟨k, hk, hnone⟩ := hmiss
    simp [requiredKeys] at hk
    rcases hk with hk | hk
    · subst hk
      have hci : computeIncrements "rectangle" params sw sh c s3 =
          .error (.keyError "l") := by simp [computeIncrements, hnone]
      exact ⟨"l", by simp [requiredKeys], hci, hpk _ hci⟩
    · subst hk
      cases hl : params.lookup "l" with
      | none =>
        have hci : computeIncrements "rectangle" params sw sh c s3 =
            .error (.keyError "l") := by simp [computeIncrements, hl]
        exact ⟨"l", by simp [requiredKeys], hci, hpk _ hci⟩
      | some l =>
        have hci : computeIncrements "rectangle" params sw sh c s3 =
            .error (.keyError "w") := by simp [computeIncrements, hl, hnone]
        exact ⟨"w", by simp [requiredKeys], hci, hpk _ hci⟩
  · obtain ⟨k, hk, hnone⟩ := hmiss
    simp [requiredKeys] at hk
    subst hk
    have hci : computeIncrements "triangle" params sw sh c s3 =
        .error (.keyError "a") := by simp [computeIncrements, hnone]
    exact ⟨"a", by simp [requiredKeys], hci, hpk _ hci⟩
  · obtain ⟨k, hk, hnone⟩ := hmiss
    simp [requiredKeys] at hk
    subst hk
    have hci : computeIncrements "semi-circle" params sw sh c s3 =
        .error (.keyError "r") := by simp [computeIncrements, hnone]
    exact ⟨"r", by simp [requiredKeys], hci, hpk _ hci⟩

/-- Claim C9 (confirmed).  `pack_shapes` is deterministic and
idempotent: two calls with identical arguments yield structurally
identical results — the sheets lists coincide, so in particular the
number of sheets, every per-sheet count and every coordinate agree, in
the same insertion order.  (The embedding is a pure function, as is the
source: no randomness, no global state, no iteration-order
ambiguity.) -/
theorem claim9_deterministic (ty : String) (params : Params) (num : ℕ)
    (sw sh c s3 : ℚ) {sheets1 sheets2 : List (List PlacedShape)}
    (h1 : pack_shapes ty params num sw sh c s3 = .ok sheets1)
    (h2 : pack_shapes ty params num sw sh c s3 = .ok sheets2) :
    sheets1 = sheets2 ∧ sheets1.length = sheets2.length ∧
    totalPlaced sheets1 = totalPlaced sheets2 := by
  rw [h1] at h2
  cases h2
  exact ⟨rfl, rfl, rfl⟩

/-- Claim C1 (code bug, evaluation at the failing input).  Rectangle
l = 0.5, w = 0.25, clearance 0, sheet 0.25 × 1.0: the swapped
orientation wins strictly (estimate 2 > 0), the stored params are
swapped — but placement uses `dy = 1/4 = w + clearance` (line 58 binds
`dy1`), not the swapped orientation's `dy = l + clearance = 1/2` the
spec prescribes. -/
theorem claim1_bug_eval :
    computeIncrements "rectangle" [("l", 1/2), ("w", 1/4)] (1/4) 1 0 fsqrt3 =
      .ok ⟨1/4, 1/4, [("l", 1/4), ("w", 1/2)], 0, 0, 0⟩ ∧
    (1/4 : ℚ) = 1/4 + 0 ∧ (1/4 : ℚ) ≠ 1/2 + 0 := by decide

/-- Claim C3 (code bug, evaluation at the failing input).  With the
line-58 pitch bug, rectangle l = 0.5, w = 0.25, clearance 0 on a
0.25 × 1.0 sheet packs 3 shapes per sheet (vertically overlapping),
while `area_upper_bound` is 2 and the reported unused area is
−0.125 < 0 — the area bound does NOT dominate the per-sheet count. -/
theorem claim3_bug_eval :
    pack_shapes "rectangle" [("l", 1/2), ("w", 1/4)] 3 (1/4) 1 0 fsqrt3 =
      .ok [[⟨"rectangle", [("l", 1/4), ("w", 1/2)], 1/8, 1/4⟩,
            ⟨"rectangle", [("l", 1/4), ("w", 1/2)], 1/8, 1/2⟩,
            ⟨"rectangle", [("l", 1/4), ("w", 1/2)], 1/8, 3/4⟩]] ∧
    area_upper_bound "rectangle" [("l", 1/2), ("w", 1/4)] (1/4) 1 fpi fsqrt3 =
      .ok 2 ∧
    ((2 : ℤ) < 3) ∧
    calculate_unused_area "rectangle" [("l", 1/2), ("w", 1/4)] (1/4) 1 3
      fpi fsqrt3 = .ok (-(1/8)) ∧
    (-(1/8) : ℚ) < 0 := by decide

/-- Claim C2, counterexample.  Circle r = 1 on a 1 × 1 sheet has
per-sheet capacity 0 (the origin cell fails the row bound), yet with
requested count 0 `pack_shapes` returns the empty result `ok []`
instead of failing with the RuntimeError — refuting "fails with
UnplaceableShape (never returning an empty result) when capacity = 0 —
including when the requested count is 0". -/
theorem claim2_counterexample :
    ¬ canPlaceOne "circle" ⟨2, 2 * fsqrt3 / 2, [("r", 1)], 1, 0, 0⟩ 1 1 fsqrt3 ∧
    computeIncrements "circle" [("r", 1)] 1 1 0 fsqrt3 =
      .ok ⟨2, 2 * fsqrt3 / 2, [("r", 1)], 1, 0, 0⟩ ∧
    pack_shapes "circle" [("r", 1)] 0 1 1 0 fsqrt3 = .ok [] := by decide

/-- Claim C4, counterexample.  Circle r = 0.1 with clearance 0.1 on a
1 × 1 sheet: the first placed shape has center-y 0.1 = r, not
r + clearance/2 = 0.15 — the first-row offset uses the raw half-extent,
not half the clearance-inflated size. -/
theorem claim4_counterexample :
    pack_shapes "circle" [("r", 1/10)] 1 1 1 (1/10) fsqrt3 =
      .ok [[⟨"circle", [("r", 1/10)], 1/10, 1/10⟩]] ∧
    (1 : ℚ)/10 ≠ 1/10 + (1/10)/2 := by decide

/-- Claim C5, counterexample.  A non-positive required parameter is NOT
rejected: circle r = 0 with clearance 0.01 packs successfully (one
degenerate shape at the origin) instead of failing with InvalidParams. -/
theorem claim5_counterexample :
    ¬ (0 : ℚ) < 0 ∧
    pack_shapes "circle" [("r", 0)] 1 1 1 (1/100) fsqrt3 =
      .ok [[⟨"circle", [("r", 0)], 0, 0⟩]] := by decide

/-- Claim C7 (confirmed).  Circle r = 0.1, clearance 0, sheet 1 × 1,
with `sqrt3` the IEEE-754 double `math.sqrt(3)`: the pitch is
dx = 0.2, dy = 0.2·√3/2, and requesting 23 shapes (the grid capacity)
fills exactly one sheet with 5 rows starting at y = 0.1 — even rows
with 5 columns (x = 0.1 … 0.9, step 0.2), odd rows offset by 0.1 with
4 columns (x = 0.2 … 0.8) — as spelled out by `c7sheet`. -/
theorem claim7_circle_scenario :
    computeIncrements "circle" [("r", 1/10)] 1 1 0 fsqrt3 =
      .ok ⟨1/5, 1/5 * fsqrt3 / 2, [("r", 1/10)], 1/10, 0, 0⟩ ∧
    pack_shapes "circle" [("r", 1/10)] 23 1 1 0 fsqrt3 = .ok [c7sheet] ∧
    c7sheet.length = 23 := by decide

/-- Witness for `claim2_amended`: square L = 1/2 on a 1 × 1 sheet,
clearance 0, requested count 5 (per-sheet capacity 4, so two sheets
with 4 + 1 shapes). -/
theorem claim2_witness :
    (validInput "square" [("L", 1/2)] ∧ (0:ℚ) < 1 ∧ (0:ℚ) ≤ 0 ∧ (0:ℚ) < 2 ∧
      computeIncrements "square" [("L", 1/2)] 1 1 0 2 =
        .ok ⟨1/2, 1/2, [("L", 1/2)], 0, 1/2, 0⟩) ∧
    ((5 = 0 → pack_shapes "square" [("L", 1/2)] 5 1 1 0 2 = .ok []) ∧
      (0 < 5 → canPlaceOne "square" ⟨1/2, 1/2, [("L", 1/2)], 0, 1/2, 0⟩ 1 1 2 →
        ∃ sheets, pack_shapes "square" [("L", 1/2)] 5 1 1 0 2 = .ok sheets ∧
          totalPlaced sheets = 5 ∧ sheets ≠ []) ∧
      (0 < 5 → ¬ canPlaceOne "square" ⟨1/2, 1/2, [("L", 1/2)], 0, 1/2, 0⟩ 1 1 2 →
        pack_shapes "square" [("L", 1/2)] 5 1 1 0 2 = .error .runtimeError)) :=
  ⟨⟨Or.inr (Or.inl ⟨rfl, 1/2, rfl, by norm_num⟩), by norm_num, le_refl (0:ℚ),
      by norm_num, by decide⟩,
    @claim2_amended "square" [("L", 1/2)] 1 1 0 2
      ⟨1/2, 1/2, [("L", 1/2)], 0, 1/2, 0⟩ 5
      (Or.inr (Or.inl ⟨rfl, 1/2, rfl, by norm_num⟩)) (by norm_num)
      (le_refl (0:ℚ)) (by norm_num) (by decide)⟩

/-- Witness for `claim4_amended`: square L = 1/2 on a 1 × 1 sheet,
one shape placed at (1/4, 1/4). -/
theorem claim4_witness :
    (computeIncrements "square" [("L", 1/2)] 1 1 0 2 =
        .ok ⟨1/2, 1/2, [("L", 1/2)], 0, 1/2, 0⟩ ∧
      pack_shapes "square" [("L", 1/2)] 1 1 1 0 2 =
        .ok [[⟨"square", [("L", 1/2)], 1/4, 1/4⟩]]) ∧
    (∀ sheet ∈ [[(⟨"square", [("L", 1/2)], 1/4, 1/4⟩ : PlacedShape)]],
      ∀ s ∈ sheet, ∃ row : ℕ,
        s.y = firstRowOffset "square" [("L", 1/2)] 0 (1/2) 0 2 + row * (1/2)) :=
  ⟨⟨by decide, by decide⟩,
    @claim4_amended "square" [("L", 1/2)] 1 1 1 0 2
      ⟨1/2, 1/2, [("L", 1/2)], 0, 1/2, 0⟩
      [[⟨"square", [("L", 1/2)], 1/4, 1/4⟩]] (by decide) (by decide)⟩

/-- Witness for `claim5_amended`: a circle request with an empty params
mapping fails with the key error for "r" before any iteration. -/
theorem claim5_witness :
    (("circle" : String) ∈ (["circle", "square", "rectangle", "triangle",
        "semi-circle"] : List String) ∧
      ∃ k ∈ requiredKeys "circle", ([] : Params).lookup k = none) ∧
    ∃ k ∈ requiredKeys "circle",
      computeIncrements "circle" [] 1 1 0 2 = .error (.keyError k) ∧
      pack_shapes "circle" [] 5 1 1 0 2 = .error (.keyError k) :=
  ⟨⟨by decide, ⟨"r", by decide, rfl⟩⟩,
    @claim5_amended "circle" [] 5 1 1 0 2 (by decide) ⟨"r", by decide, rfl⟩⟩

/-- Witness for `claim6_bounds`: square L = 1/2 on a 1 × 1 sheet, one
shape placed at (1/4, 1/4), whose center respects all four margins. -/
theorem claim6_witness :
    (validInput "square" [("L", 1/2)] ∧ (0:ℚ) < 1 ∧ (0:ℚ) ≤ 0 ∧ (0:ℚ) < 2 ∧
      computeIncrements "square" [("L", 1/2)] 1 1 0 2 =
        .ok ⟨1/2, 1/2, [("L", 1/2)], 0, 1/2, 0⟩ ∧
      pack_shapes "square" [("L", 1/2)] 1 1 1 0 2 =
        .ok [[⟨"square", [("L", 1/2)], 1/4, 1/4⟩]]) ∧
    (∀ sheet ∈ [[(⟨"square", [("L", 1/2)], 1/4, 1/4⟩ : PlacedShape)]],
      ∀ s ∈ sheet,
        halfExtentX "square" s.params 0 (1/2) 0 ≤ s.x ∧
        s.x ≤ 1 - halfExtentX "square" s.params 0 (1/2) 0 ∧
        firstRowOffset "square" s.params 0 (1/2) 0 2 ≤ s.y ∧
        s.y ≤ 1 - trailExtY "square" s.params 0 (1/2) 0 2) :=
  ⟨⟨Or.inr (Or.inl ⟨rfl, 1/2, rfl, by norm_num⟩), by norm_num, le_refl (0:ℚ),
      by norm_num, by decide, by decide⟩,
    @claim6_bounds "square" [("L", 1/2)] 1 1 1 0 2
      ⟨1/2, 1/2, [("L", 1/2)], 0, 1/2, 0⟩
      [[⟨"square", [("L", 1/2)], 1/4, 1/4⟩]]
      (Or.inr (Or.inl ⟨rfl, 1/2, rfl, by norm_num⟩)) (by norm_num)
      (by norm_num) (le_refl (0:ℚ)) (by norm_num) (by decide) (by decide)⟩

/-- Witness for `claim8_termination`: square L = 1/2 on a 1 × 1 sheet,
requested count 5. -/
theorem claim8_witness :
    (validInput "square" [("L", 1/2)] ∧ (0:ℚ) < 1 ∧ (0:ℚ) ≤ 0 ∧ (0:ℚ) < 2 ∧
      computeIncrements "square" [("L", 1/2)] 1 1 0 2 =
        .ok ⟨1/2, 1/2, [("L", 1/2)], 0, 1/2, 0⟩) ∧
    ((∃ sheets, pack_shapes "square" [("L", 1/2)] 5 1 1 0 2 = .ok sheets ∧
        sheets.length ≤ 5) ∨
      pack_shapes "square" [("L", 1/2)] 5 1 1 0 2 = .error .runtimeError) :=
  ⟨⟨Or.inr (Or.inl ⟨rfl, 1/2, rfl, by norm_num⟩), by norm_num, le_refl (0:ℚ),
      by norm_num, by decide⟩,
    @claim8_termination "square" [("L", 1/2)] 1 1 0 2
      ⟨1/2, 1/2, [("L", 1/2)], 0, 1/2, 0⟩ 5
      (Or.inr (Or.inl ⟨rfl, 1/2, rfl, by norm_num⟩)) (by norm_num)
      (by norm_num) (le_refl (0:ℚ)) (by norm_num) (by decide)⟩

/-- Witness for `claim9_deterministic`: square L = 1 on a 1 × 1 sheet,
one shape at the sheet center; both calls produce the same result. -/
theorem claim9_witness :
    (pack_shapes "square" [("L", 1)] 1 1 1 0 2 =
        .ok [[⟨"square", [("L", 1)], 1/2, 1/2⟩]] ∧
      pack_shapes "square" [("L", 1)] 1 1 1 0 2 =
        .ok [[⟨"square", [("L", 1)], 1/2, 1/2⟩]]) ∧
    ([[(⟨"square", [("L", 1)], 1/2, 1/2⟩ : PlacedShape)]] =
        [[⟨"square", [("L", 1)], 1/2, 1/2⟩]] ∧
      ([[(⟨"square", [("L", 1)], 1/2, 1/2⟩ : PlacedShape)]]).length =
        ([[(⟨"square", [("L", 1)], 1/2, 1/2⟩ : PlacedShape)]]).length ∧
      totalPlaced [[⟨"square", [("L", 1)], 1/2, 1/2⟩]] =
        totalPlaced [[⟨"square", [("L", 1)], 1/2, 1/2⟩]]) :=
  ⟨⟨by decide, by decide⟩,
    @claim9_deterministic "square" [("L", 1)] 1 1 1 0 2
      [[⟨"square", [("L", 1)], 1/2, 1/2⟩]]
      [[⟨"square", [("L", 1)], 1/2, 1/2⟩]] (by decide) (by decide)⟩

end Nesting
